import Mathlib

/-!
Verification of the aio-peewee asynchronous connection-pool layer
(`aiopeewee/__init__.py`, `aiopeewee/transactions.py`, `aiopeewee/_compat.py`).

The development shallowly embeds the admission controller of
`PooledDatabaseAsync`, the context-scoped connection state backed by
`ContextVar` defaults, the facade scoped-acquisition protocol of
`DatabaseAsync.__aenter__`/`__aexit__`, and the `_atomic_async.__aenter__`
decision logic.  Connections and logical contexts are identified by natural
numbers; the event loop's interleaving semantics is a step relation whose
steps are the atomic (suspension-free) segments of the source coroutines
under the asyncio runtime, where `asyncio.Event.set` returns `None` and so
`_release` runs without suspending.
-/

set_option autoImplicit false

namespace AioPeewee

/-- Error conditions surfaced by the library: `peewee.OperationalError` from
`close_async` during a transaction, `playhouse.pool.MaxConnectionsExceeded`
from the admission timeout branch (and from the underlying pool's own
capacity check), the generic `TimeoutError` raised by `_raise_timeout`, and
`ValueError` from `_atomic_async.__aenter__` in manual-commit mode. -/
inductive PwError
  | operationalError
  | maxConnectionsExceeded
  | timeoutError
  | valueError
deriving DecidableEq, Repr

/-- Kinds of entries on the context's transaction stack: `pw._transaction`
(and its async subclass), `pw._savepoint`, and `pw._manual` (and its async
subclass, which `isinstance(..., pw._manual)` also matches). -/
inductive TxnKind
  | transaction
  | savepoint
  | manual
deriving DecidableEq, Repr

/-- Context-scoped connection state, the values of the `closed`, `conn` and
`transactions` slots of `_AsyncConnectionState` as read through `_ctx`.
`transactions` is `Option` because the `ContextVar` default is `None` while
`reset()` stores a list. -/
structure CtxState where
  closed : Bool
  conn : Option Nat
  transactions : Option (List TxnKind)
deriving DecidableEq, Repr

/-- Embeds `peewee.Database.in_transaction`, `bool(self._state.transactions)`:
`None` and the empty list are falsy, a non-empty list is truthy. -/
def in_transaction (st : CtxState) : Bool :=
  match st.transactions with
  | none => false
  | some l => !l.isEmpty

/-- Raw per-context storage of the four `ContextVar` slots in `_ctx`.  A
slot holding `none` was never set in the context, so `ContextVar.get`
returns the declared default. -/
structure CtxSlots where
  closedSlot : Option Bool
  connSlot : Option (Option Nat)
  transactionsSlot : Option (Option (List TxnKind))
deriving DecidableEq, Repr

/-- A logical context in which no `_ctx` slot was ever set. -/
def freshCtx : CtxSlots := ⟨none, none, none⟩

/-- Reading `_ctx['closed']`: `ContextVar('closed', default=True)`. -/
def getClosed (c : CtxSlots) : Bool := c.closedSlot.getD true

/-- Reading `_ctx['conn']`: `ContextVar('conn', default=None)`. -/
def getConn (c : CtxSlots) : Option Nat := c.connSlot.getD none

/-- Reading `_ctx['transactions']`: `ContextVar('transactions', default=None)`. -/
def getTransactions (c : CtxSlots) : Option (List TxnKind) :=
  c.transactionsSlot.getD none

/-- The `CtxState` a context observes through its slots. -/
def ctxStateOf (c : CtxSlots) : CtxState :=
  { closed := getClosed c, conn := getConn c, transactions := getTransactions c }

/-! ### The admission controller (`PooledDatabaseAsync`)

Pool state: `maxConn` is `self._max_connections`, `inUse` is
`len(self._in_use)`, `waiters` is the FIFO deque `self._waiters` (front =
oldest), holding the id of the context whose `aio_event()` it is.  `phase`
records where each logical context stands in its `connect_async` call. -/

/-- Where a logical context stands with respect to one pool. -/
inductive Phase
  | idle
  | waiting
  | signaled
  | holding
  | failed
  | refused
deriving DecidableEq, Repr

/-- State of one `PooledDatabaseAsync` plus the phases of all contexts. -/
structure PoolSt where
  maxConn : Nat
  inUse : Nat
  waiters : List Nat
  phase : Nat → Phase

/-- The pool as constructed: no connection checked out, no waiter queued. -/
def initPool (n : Nat) : PoolSt :=
  { maxConn := n, inUse := 0, waiters := [], phase := fun _ => .idle }

/-- Embeds the loop body of `PooledDatabaseAsync._release`:
`for _ in range(self._max_connections - len(self._in_use)):` pops the
oldest waiter and signals it, stopping early when the deque is empty.
Returns the signaled waiters in pop order and the remaining deque. -/
def releaseLoop : Nat → List Nat → List Nat × List Nat
  | 0, ws => ([], ws)
  | _ + 1, [] => ([], [])
  | n + 1, w :: ws =>
    let r := releaseLoop n ws
    (w :: r.1, r.2)

/-- Embeds `PooledDatabaseAsync._release` on a pool with capacity `m`,
in-use count `i` and waiter deque `ws`; Python's `range` of a negative
number is empty, matching truncated subtraction on `Nat`. -/
def releasePass (m i : Nat) (ws : List Nat) : List Nat × List Nat :=
  releaseLoop (m - i) ws

/-- Phase update performed by signaling the popped waiters: a context still
waiting on a popped event resumes as `signaled`; a context that already
timed out (phase `failed`) stays failed — `Event.set()` on its abandoned
event has no effect because `aio_wait` cancelled the `wait()` task. -/
def signalPhase (popped : List Nat) (ph : Nat → Phase) : Nat → Phase :=
  fun d => if d ∈ popped ∧ ph d = .waiting then .signaled else ph d

/-- Effect of `await self._release()` on the pool state: pops and signals
up to `maxConn - inUse` waiters; the in-use count is not touched. -/
def releaseOnlySt (s : PoolSt) : PoolSt :=
  let r := releasePass s.maxConn s.inUse s.waiters
  { s with waiters := r.2, phase := signalPhase r.1 s.phase }

/-- Effect of `PooledDatabaseAsync.close_async` (transaction-free path) run
by holding context `c`: `super().close()` returns the connection to the
pool (`len(self._in_use)` drops by one, the context becomes idle), then
`await self._release()` signals admittable waiters. -/
def closeAsyncState (s : PoolSt) (c : Nat) : PoolSt :=
  releaseOnlySt
    { s with
      inUse := s.inUse - 1
      phase := fun d => if d = c then .idle else s.phase d }

/-- Context `c` passes the `len(self._in_use) >= self._max_connections`
check and calls `self.connect(...)`: the underlying playhouse pool checks
out a connection, growing `_in_use` by one. -/
def admitConn (s : PoolSt) (c : Nat) : PoolSt :=
  { s with
    inUse := s.inUse + 1
    phase := fun d => if d = c then .holding else s.phase d }

/-- Context `c` finds the pool saturated: `connect_async` appends a fresh
`aio_event()` to `self._waiters` and suspends in `aio_wait`. -/
def enqueueWaiter (s : PoolSt) (c : Nat) : PoolSt :=
  { s with
    waiters := s.waiters ++ [c]
    phase := fun d => if d = c then .waiting else s.phase d }

/-- The timeout of context `c` fires first: `aio_wait` raises
`TimeoutError`, `connect_async` raises `MaxConnectionsExceeded` and
returns.  The `except` branch does not touch `self._waiters`, so the
abandoned event stays in the deque. -/
def timeoutConn (s : PoolSt) (c : Nat) : PoolSt :=
  { s with phase := fun d => if d = c then .failed else s.phase d }

/-- A signaled context resumes into `self.connect(...)` while the pool is
already full again: the underlying playhouse pool's own capacity check
(`len(self._in_use) >= self._max_connections` in `_connect`) raises
`MaxConnectionsExceeded`, so no connection is opened. -/
def refuseConn (s : PoolSt) (c : Nat) : PoolSt :=
  { s with phase := fun d => if d = c then .refused else s.phase d }

/-- One atomic (suspension-free under asyncio) segment of the source
coroutines acting on the shared pool state. -/
inductive Step : PoolSt → PoolSt → Prop
  | connectImmediate (s : PoolSt) (c : Nat) :
      s.phase c = .idle → s.inUse < s.maxConn → Step s (admitConn s c)
  | connectEnqueue (s : PoolSt) (c : Nat) :
      s.phase c = .idle → s.maxConn ≤ s.inUse → Step s (enqueueWaiter s c)
  | resumeAdmit (s : PoolSt) (c : Nat) :
      s.phase c = .signaled → s.inUse < s.maxConn → Step s (admitConn s c)
  | resumeRefused (s : PoolSt) (c : Nat) :
      s.phase c = .signaled → s.maxConn ≤ s.inUse → Step s (refuseConn s c)
  | timeoutFire (s : PoolSt) (c : Nat) :
      s.phase c = .waiting → Step s (timeoutConn s c)
  | closeRelease (s : PoolSt) (c : Nat) :
      s.phase c = .holding → Step s (closeAsyncState s c)

/-- Pool states reachable from a given initial state. -/
inductive Reachable (init : PoolSt) : PoolSt → Prop
  | refl : Reachable init init
  | tail {s s' : PoolSt} : Reachable init s → Step s s' → Reachable init s'

/-! ### Entry of `PooledDatabaseAsync.connect_async` -/

/-- How a call to `PooledDatabaseAsync.connect_async` proceeds from its
first two checks. -/
inductive ConnectEntry
  | reused (conn : Option Nat)
  | enqueue
  | proceed
deriving DecidableEq, Repr

/-- Embeds lines 104-109 of `connect_async` as run by context `c` with
`_ctx` state `st`: the `reuse_if_open and not self.is_closed()` fast path
returns `self._state.conn` without touching the pool; otherwise, a
saturated pool (`len(self._in_use) >= self._max_connections`) enqueues a
waiter, and an unsaturated one falls through to `self.connect(...)`. -/
def connect_async_start (reuse : Bool) (st : CtxState) (s : PoolSt) (c : Nat) :
    ConnectEntry × PoolSt :=
  if reuse && !st.closed then (.reused st.conn, s)
  else if s.maxConn ≤ s.inUse then (.enqueue, enqueueWaiter s c)
  else (.proceed, s)

/-! ### The `aio_wait` race between `waiter.wait()` and `_raise_timeout`

Under asyncio, `aio_wait(..., strategy=FIRST_COMPLETED)` runs
`done, pending = await asyncio.wait(aws, return_when=FIRST_COMPLETED)` and
returns `list(done)[0].result()`.  `done` is an unordered set, so when both
the signal and the timeout are ready at resume time either may come first;
the list below carries the order the runtime happens to report. -/

/-- Outcome of one racer: `waiter.wait()` completes normally;
`_raise_timeout` completes by raising `TimeoutError`. -/
inductive TaskRes
  | waitDone
  | timeoutRaise
deriving DecidableEq, Repr

/-- Embeds `list(done)[0].result()` on the non-empty `done` set, in the
order the runtime reports it: the first task's result is returned, or its
exception re-raised. -/
def aio_wait_first : List TaskRes → Except PwError Unit
  | [] => .ok ()
  | .waitDone :: _ => .ok ()
  | .timeoutRaise :: _ => .error .timeoutError

/-- Embeds lines 110-119 of `connect_async`: the `except TimeoutError`
handler unconditionally raises `MaxConnectionsExceeded`; a normal return
from `aio_wait` falls through to `self.connect(...)`.  No check of whether
the caller's waiter was actually signaled is performed. -/
def connect_wait_outcome (done : List TaskRes) : Except PwError Unit :=
  match aio_wait_first done with
  | .error .timeoutError => .error .maxConnectionsExceeded
  | r => r

/-! ### `close_async` and `close_all_async` -/

/-- Embeds `PooledDatabaseAsync.close_async` called by a context with
`_ctx` state `st` on a pool with capacity `m`, in-use count `iu` and
waiter deque `ws`.  `self.in_transaction()` raises `OperationalError`
(leaving every piece of state as it was); otherwise `super().close()`
returns the connection to the pool when one was open and resets the
context state, and `await self._release()` signals admittable waiters.
Returns the new context state, the new in-use count, the signaled waiters
and the remaining deque. -/
def close_async_model (st : CtxState) (m iu : Nat) (ws : List Nat) :
    Except PwError (CtxState × Nat × List Nat × List Nat) :=
  if in_transaction st then .error .operationalError
  else
    let iu' := if st.closed then iu else iu - 1
    let r := releasePass m iu' ws
    .ok (⟨true, none, some []⟩, iu', r.1, r.2)

/-- Effect of playhouse's synchronous `PooledDatabase.close_all`: every
checked-out connection is closed and returned, so `_in_use` empties and
every holding context loses its connection. -/
def closeAllState (s : PoolSt) : PoolSt :=
  { s with
    inUse := 0
    phase := fun d => if s.phase d = .holding then .idle else s.phase d }

/-- Embeds the `while self._waiters:` loop of
`PooledDatabaseAsync.close_all_async`, one `super().close_all()` then
`await self._release()` per iteration, with explicit fuel (each iteration
with a positive capacity strictly shrinks the deque, so
`s.waiters.length` iterations suffice). -/
def close_all_loop : Nat → PoolSt → PoolSt
  | 0, s => s
  | fuel + 1, s =>
    if s.waiters.isEmpty then s
    else close_all_loop fuel (releaseOnlySt (closeAllState s))

/-- Embeds `PooledDatabaseAsync.close_all_async`. -/
def close_all_async (s : PoolSt) : PoolSt :=
  close_all_loop s.waiters.length s

/-! ### `_atomic_async.__aenter__` -/

/-- SQL-level actions the transaction helpers emit on entry:
`self.db.begin()` from `pw._transaction.__enter__` at depth zero, and the
`SAVEPOINT` statement from `pw._savepoint.__enter__`. -/
inductive Stmt
  | begin
  | beginSavepoint
deriving DecidableEq, Repr

/-- Which helper `_atomic_async.__aenter__` delegates to. -/
inductive AtomicChoice
  | transactionHelper
  | savepointHelper
deriving DecidableEq, Repr

/-- Embeds `peewee.Database.top_transaction`: the most recently pushed
entry of the context's transaction stack, or `None` when empty. -/
def top_transaction (stack : List TxnKind) : Option TxnKind :=
  stack.getLast?

/-- Embeds `_atomic_async.__aenter__` on the context's transaction stack:
at `transaction_depth() == 0` it builds the transaction helper, whose
entry emits `begin`; else if `isinstance(self.db.top_transaction(),
pw._manual)` it raises `ValueError` before constructing any helper, so no
statement is emitted; else it builds the savepoint helper, whose entry
emits the savepoint statement.  Returns the choice (or error) together
with the statements emitted by this entry. -/
def atomic_aenter (stack : List TxnKind) : Except PwError AtomicChoice × List Stmt :=
  if stack.length = 0 then (.ok .transactionHelper, [.begin])
  else if top_transaction stack = some .manual then (.error .valueError, [])
  else (.ok .savepointHelper, [.beginSavepoint])

/-! ### The facade scoped-acquisition protocol (`DatabaseAsync`)

`__aenter__` runs `await self.connect_async(reuse_if_open=True)` (after
which the context's connection is open) and `super().__enter__()`, which
pushes one context-manager entry onto `self._state.ctx`.  `__aexit__` pops
exactly one entry, calls its `__exit__`, and in a `finally:` block closes
the connection when the stack became empty.  The model tracks the length
of `self._state.ctx` and the context's `closed` flag. -/

/-- Facade state of one logical context: depth of `self._state.ctx` and
the context's `closed` flag. -/
structure FacadeSt where
  ctxDepth : Nat
  closed : Bool
deriving DecidableEq, Repr

/-- Embeds `DatabaseAsync.__aenter__`: opens the connection if the context
has none (reuse-if-open otherwise), then pushes one entry onto
`self._state.ctx`. -/
def facade_aenter (s : FacadeSt) : FacadeSt :=
  { ctxDepth := s.ctxDepth + 1, closed := false }

/-- Embeds `DatabaseAsync.__aexit__` where `exitFails` tells whether the
popped entry's `__exit__` raises: `self._state.ctx.pop()` fails on an
empty stack (`none`); otherwise one entry is popped and — whether or not
`ctx.__exit__` raises, thanks to the `finally:` block — the connection is
closed exactly when the stack became empty.  The Boolean paired with the
resulting state tells whether the call re-raises. -/
def facade_aexit (s : FacadeSt) (exitFails : Bool) : Option (FacadeSt × Bool) :=
  match s.ctxDepth with
  | 0 => none
  | d + 1 => some ({ ctxDepth := d, closed := if d = 0 then true else s.closed }, exitFails)

/-- A scoped-acquisition action of one context: an enter, or an exit whose
popped scope's `__exit__` raises when the flag is true. -/
inductive FOp
  | enter
  | exitScope (fails : Bool)
deriving DecidableEq, Repr

/-- Runs a sequence of scoped-acquisition actions; `none` when an exit is
attempted with no scope open. -/
def runOps : FacadeSt → List FOp → Option FacadeSt
  | s, [] => some s
  | s, .enter :: rest => runOps (facade_aenter s) rest
  | s, .exitScope f :: rest =>
    match facade_aexit s f with
    | none => none
    | some (s', _) => runOps s' rest

/-! ### Helper lemmas -/

/-- The `_release` loop pops exactly the first `n` waiters. -/
theorem releaseLoop_eq (n : Nat) (ws : List Nat) :
    releaseLoop n ws = (ws.take n, ws.drop n) := by
  induction n generalizing ws with
  | zero => simp [releaseLoop]
  | succ k ih =>
    cases ws with
    | nil => simp [releaseLoop]
    | cons w tl => simp [releaseLoop, ih]

theorem releasePass_fst (m i : Nat) (ws : List Nat) :
    (releasePass m i ws).1 = ws.take (m - i) := by
  simp [releasePass, releaseLoop_eq]

theorem releasePass_snd (m i : Nat) (ws : List Nat) :
    (releasePass m i ws).2 = ws.drop (m - i) := by
  simp [releasePass, releaseLoop_eq]

theorem releaseOnlySt_inUse (s : PoolSt) : (releaseOnlySt s).inUse = s.inUse := rfl

theorem releaseOnlySt_maxConn (s : PoolSt) : (releaseOnlySt s).maxConn = s.maxConn := rfl

theorem releaseOnlySt_waiters (s : PoolSt) :
    (releaseOnlySt s).waiters = s.waiters.drop (s.maxConn - s.inUse) := by
  simp [releaseOnlySt, releasePass_snd]

theorem closeAllState_fields (s : PoolSt) :
    (closeAllState s).inUse = 0 ∧ (closeAllState s).maxConn = s.maxConn ∧
      (closeAllState s).waiters = s.waiters :=
  ⟨rfl, rfl, rfl⟩

theorem closeAsyncState_inUse (s : PoolSt) (c : Nat) :
    (closeAsyncState s c).inUse = s.inUse - 1 := rfl

theorem closeAsyncState_maxConn (s : PoolSt) (c : Nat) :
    (closeAsyncState s c).maxConn = s.maxConn := rfl

/-- Every step preserves the capacity and the in-use bound. -/
theorem step_preserves_bound {s s' : PoolSt} (h : Step s s') :
    s'.maxConn = s.maxConn ∧ (s.inUse ≤ s.maxConn → s'.inUse ≤ s'.maxConn) := by
  cases h with
  | connectImmediate c hidle hlt =>
    exact ⟨rfl, fun _ => Nat.succ_le_of_lt hlt⟩
  | connectEnqueue c hidle hge => exact ⟨rfl, fun hb => hb⟩
  | resumeAdmit c hsig hlt => exact ⟨rfl, fun _ => Nat.succ_le_of_lt hlt⟩
  | resumeRefused c hsig hge => exact ⟨rfl, fun hb => hb⟩
  | timeoutFire c hw => exact ⟨rfl, fun hb => hb⟩
  | closeRelease c hh =>
    refine ⟨rfl, fun hb => ?_⟩
    rw [closeAsyncState_inUse, closeAsyncState_maxConn]
    omega

/-- States reachable from a freshly constructed pool keep the capacity and
stay within the in-use bound. -/
theorem reachable_bound (n : Nat) (s : PoolSt) (h : Reachable (initPool n) s) :
    s.maxConn = n ∧ s.inUse ≤ s.maxConn := by
  induction h with
  | refl => exact ⟨rfl, Nat.zero_le _⟩
  | tail hr hs ih =>
    obtain ⟨hmax, hb⟩ := step_preserves_bound hs
    exact ⟨hmax.trans ih.1, hb ih.2⟩

/-- A run of `close_all_loop` with an empty deque returns immediately. -/
theorem close_all_loop_empty (fuel : Nat) (s : PoolSt) (h : s.waiters = []) :
    close_all_loop fuel s = s := by
  cases fuel with
  | zero => rfl
  | succ k => simp [close_all_loop, h]

/-- With positive capacity and a non-empty deque, enough fuel drains the
queue and leaves no connection checked out. -/
theorem close_all_loop_drains (fuel : Nat) :
    ∀ s : PoolSt, 1 ≤ s.maxConn → s.waiters.length ≤ fuel → s.waiters ≠ [] →
      (close_all_loop fuel s).waiters = [] ∧ (close_all_loop fuel s).inUse = 0 := by
  induction fuel with
  | zero =>
    intro s _ hlen hne
    exact absurd (List.eq_nil_of_length_eq_zero (Nat.le_zero.mp hlen)) hne
  | succ k ih =>
    intro s hm hlen hne
    have hempty : s.waiters.isEmpty = false := by
      cases hw : s.waiters with
      | nil => exact absurd hw hne
      | cons a tl => simp [hw]
    rw [close_all_loop, if_neg (by simp [hempty])]
    set s1 := releaseOnlySt (closeAllState s) with hs1
    have h1max : s1.maxConn = s.maxConn := rfl
    have h1use : s1.inUse = 0 := rfl
    have h1w : s1.waiters = s.waiters.drop s.maxConn := by
      rw [hs1, releaseOnlySt_waiters]
      simp [closeAllState]
    by_cases hw1 : s1.waiters = []
    · rw [close_all_loop_empty k s1 hw1]
      exact ⟨hw1, h1use⟩
    · have hlen1 : s1.waiters.length ≤ k := by
        rw [h1w, List.length_drop]
        have : s.waiters.length ≠ 0 := by
          intro h0
          exact hne (List.eq_nil_of_length_eq_zero h0)
        omega
      exact ih s1 (by rw [h1max]; exact hm) hlen1 hw1

/-- The run invariant of the facade protocol: starting from a state whose
closed flag matches "no scope open", every successful run preserves the
match. -/
theorem runOps_invariant (ops : List FOp) :
    ∀ s : FacadeSt, s.closed = decide (s.ctxDepth = 0) →
      ∀ s' : FacadeSt, runOps s ops = some s' → s'.closed = decide (s'.ctxDepth = 0) := by
  induction ops with
  | nil =>
    intro s hs s' hrun
    cases hrun
    exact hs
  | cons op rest ih =>
    intro s hs s' hrun
    cases op with
    | enter =>
      refine ih (facade_aenter s) ?_ s' hrun
      simp [facade_aenter]
    | exitScope f =>
      cases hd : s.ctxDepth with
      | zero => simp [runOps, facade_aexit, hd] at hrun
      | succ d =>
        simp only [runOps, facade_aexit, hd] at hrun
        refine ih _ ?_ s' hrun
        cases d with
        | zero => simp
        | succ k =>
          have : s.closed = false := by
            rw [hs, hd]
            simp
          simp [this]

/-! ### Claim theorems -/

/-- C2: for every pool state with a non-empty waiter queue, `_release`
signals waiters strictly in arrival (FIFO) order — the signaled waiters
are exactly the oldest prefix of the deque, in order — signals at most
`capacity - in_use` waiters in one pass, and after the pass no waiter that
newly available capacity could accept remains queued; signaling a waiter
does not itself change the in-use count — the awakened `connect_async`
call performs the increment and the connection open. -/
theorem c2_release_fifo_bounded_drain (m i : Nat) (ws : List Nat) :
    (releasePass m i ws).1 = ws.take (m - i) ∧
    (releasePass m i ws).1 ++ (releasePass m i ws).2 = ws ∧
    (releasePass m i ws).1.length ≤ m - i ∧
    ((releasePass m i ws).2 ≠ [] → (releasePass m i ws).1.length = m - i) ∧
    (∀ s : PoolSt, (releaseOnlySt s).inUse = s.inUse) ∧
    (∀ (s : PoolSt) (c : Nat), s.phase c = .signaled → s.inUse < s.maxConn →
      Step s (admitConn s c) ∧ (admitConn s c).inUse = s.inUse + 1) := by
  refine ⟨releasePass_fst m i ws, ?_, ?_, ?_, fun s => rfl, ?_⟩
  · rw [releasePass_fst, releasePass_snd]
    exact List.take_append_drop _ _
  · rw [releasePass_fst, List.length_take]
    exact Nat.min_le_left _ _
  · intro hne
    rw [releasePass_snd] at hne
    rw [releasePass_fst, List.length_take]
    have hlt : ¬ ws.length ≤ m - i := fun hle => hne (List.drop_eq_nil_iff.mpr hle)
    omega
  · intro s c hsig hlt
    exact ⟨Step.resumeAdmit s c hsig hlt, rfl⟩

/-- Concrete pool state used to witness the signaled-resume conjunct. -/
def c2WitSt : PoolSt :=
  { maxConn := 2, inUse := 1, waiters := [], phase := fun _ => .signaled }

/-- Witness for C2 at capacity 2, in-use 1, deque `[5, 6]`: one waiter is
signaled (the oldest), one remains, and a signaled context's resume
increments the in-use count. -/
theorem c2_release_fifo_witness :
    (releasePass 2 1 [5, 6]).1 = [5] ∧
    (releasePass 2 1 [5, 6]).2 ≠ [] ∧
    (releasePass 2 1 [5, 6]).1.length = 2 - 1 ∧
    (admitConn c2WitSt 0).inUse = c2WitSt.inUse + 1 := by
  have h := c2_release_fifo_bounded_drain 2 1 [5, 6]
  refine ⟨by decide, by decide, h.2.2.2.1 (by decide), ?_⟩
  exact ((c2_release_fifo_bounded_drain 2 1 [5, 6]).2.2.2.2.2 c2WitSt 0 rfl
    (by decide)).2

/-- C4 counterexample: with both racers ready at resume time and the
runtime reporting the timeout task first in `done`, `connect_async`
concludes `MaxConnectionsExceeded` even though the waiter's signal had
completed — there is no admitted-check resolving the race in favor of the
signal. -/
theorem c4_signaled_waiter_can_fail :
    connect_wait_outcome [TaskRes.timeoutRaise, TaskRes.waitDone] =
      .error .maxConnectionsExceeded ∧
    TaskRes.waitDone ∈ [TaskRes.timeoutRaise, TaskRes.waitDone] := by
  exact ⟨rfl, by decide⟩

/-- C4 (amended): when a queued acquire's wait signal and its timeout are
both ready at resume time, the outcome is decided by whichever completed
task the runtime's `wait` happens to report first — the resumed
`connect_async` path performs no check of whether it was admitted, so it
proceeds when the signal is reported first and fails with the
pool-exhausted condition when the timeout is reported first. -/
theorem c4_first_reported_wins (rest : List TaskRes) :
    connect_wait_outcome (TaskRes.waitDone :: rest) = .ok () ∧
    connect_wait_outcome (TaskRes.timeoutRaise :: rest) =
      .error .maxConnectionsExceeded := by
  exact ⟨rfl, rfl⟩

/-- C5: for every context that already holds an open connection,
`connect_async` with `reuse_if_open=true` returns that same connection
instance immediately — the pool state is returned untouched, no waiter is
enqueued, no capacity consumed — for every pool state, including a pool
saturated by other contexts, so a repeated reuse-if-open acquire in the
same context is idempotent. -/
theorem c5_reuse_fast_path (st : CtxState) (s : PoolSt) (c : Nat)
    (h : st.closed = false) :
    connect_async_start true st s c = (.reused st.conn, s) := by
  simp [connect_async_start, h]

/-- Context state and saturated pool used to witness C5. -/
def c5WitCtx : CtxState := { closed := false, conn := some 7, transactions := some [] }

/-- A pool saturated by other contexts: capacity 1, one connection out. -/
def c5WitPool : PoolSt :=
  { maxConn := 1, inUse := 1, waiters := [], phase := fun _ => .idle }

/-- Witness for C5: on a saturated pool, the reuse-if-open fast path still
returns the held connection with the pool untouched. -/
theorem c5_reuse_fast_path_witness :
    connect_async_start true c5WitCtx c5WitPool 3 = (.reused (some 7), c5WitPool) ∧
    c5WitPool.maxConn ≤ c5WitPool.inUse := by
  exact ⟨c5_reuse_fast_path c5WitCtx c5WitPool 3 rfl, by decide⟩

/-- C10: in a logical context that has never set its connection state, the
context-scoped reads yield the declared defaults `closed = True` and
`conn = None` (and an empty — `None` — transaction state, so
`in_transaction` is false), hence a fresh context observes the database as
closed and `connect_async` with `reuse_if_open=true` never takes the
reuse fast path there — it always proceeds to the admission path
(enqueueing when saturated, falling through to `connect` otherwise) and
never returns a sibling context's connection. -/
theorem c10_fresh_context_defaults :
    getClosed freshCtx = true ∧
    getConn freshCtx = none ∧
    getTransactions freshCtx = none ∧
    in_transaction (ctxStateOf freshCtx) = false ∧
    (∀ (s : PoolSt) (c : Nat),
      connect_async_start true (ctxStateOf freshCtx) s c =
        if s.maxConn ≤ s.inUse then (.enqueue, enqueueWaiter s c) else (.proceed, s)) ∧
    (∀ (s : PoolSt) (c : Nat) (o : Option Nat),
      (connect_async_start true (ctxStateOf freshCtx) s c).1 ≠ .reused o) := by
  refine ⟨rfl, rfl, rfl, rfl, ?_, ?_⟩
  · intro s c
    simp [connect_async_start, ctxStateOf, getClosed, freshCtx]
  · intro s c o
    by_cases hs : s.maxConn ≤ s.inUse <;>
      simp [connect_async_start, ctxStateOf, getClosed, freshCtx, hs]

/-- C1 (amended): for every pool constructed with capacity `N`, every
reachable state keeps the in-use count at most `N`, and on a saturated
pool an (N+1)-th concurrent `connect_async` call enqueues as a waiter
without opening a connection (and later either resumes signaled or fails
with the timeout condition); the in-use bound is preserved by every step.
The waiters queue, however, may be non-empty while the in-use count is
strictly below `N`: after a release signals the oldest waiter, further
queued waiters coexist with free capacity until signaled acquirers
resume. -/
theorem c1_inuse_bounded_by_capacity (n : Nat) (s : PoolSt)
    (h : Reachable (initPool n) s) :
    s.inUse ≤ s.maxConn ∧ s.maxConn = n ∧
    (∀ c : Nat, s.phase c = .idle → s.maxConn ≤ s.inUse →
      Step s (enqueueWaiter s c) ∧ (enqueueWaiter s c).inUse = s.inUse ∧
        (enqueueWaiter s c).waiters = s.waiters ++ [c]) ∧
    (∀ s' : PoolSt, Step s s' → s'.inUse ≤ s'.maxConn) := by
  obtain ⟨hmax, hb⟩ := reachable_bound n s h
  refine ⟨hb, hmax, ?_, ?_⟩
  · intro c hidle hsat
    exact ⟨Step.connectEnqueue s c hidle hsat, rfl, rfl⟩
  · intro s' hs
    exact (step_preserves_bound hs).2 hb

/-- Trace for C1 on a capacity-1 pool: context 0 connects, contexts 1 and
2 queue, then context 0 releases. -/
def c1s1 : PoolSt := admitConn (initPool 1) 0

def c1s2 : PoolSt := enqueueWaiter c1s1 1

def c1s3 : PoolSt := enqueueWaiter c1s2 2

def c1s4 : PoolSt := closeAsyncState c1s3 0

/-- Witness for C1 (amended) at the reachable saturated state `c1s1`: the
bound holds and a saturated connect by context 1 enqueues without
changing the in-use count. -/
theorem c1_inuse_bounded_witness :
    c1s1.inUse ≤ c1s1.maxConn ∧ Step c1s1 (enqueueWaiter c1s1 1) ∧
      (enqueueWaiter c1s1 1).inUse = c1s1.inUse := by
  have hreach : Reachable (initPool 1) c1s1 :=
    .tail .refl (Step.connectImmediate (initPool 1) 0 rfl (by decide))
  have h := c1_inuse_bounded_by_capacity 1 c1s1 hreach
  exact ⟨h.1, (h.2.2.1 1 (by decide) (by decide)).1,
    (h.2.2.1 1 (by decide) (by decide)).2.1⟩

/-- C1 counterexample: from a capacity-1 pool, after context 0 connects,
contexts 1 and 2 queue and context 0 releases (signaling only context 1),
the reachable state `c1s4` has a non-empty waiter queue while the in-use
count is 0, strictly below capacity — refuting "the waiters queue is
non-empty only when the in-use count equals N". -/
theorem c1_queue_nonempty_below_capacity :
    Reachable (initPool 1) c1s4 ∧ c1s4.waiters ≠ [] ∧
      c1s4.inUse < c1s4.maxConn := by
  refine ⟨?_, by decide, by decide⟩
  have h1 : Step (initPool 1) c1s1 :=
    Step.connectImmediate (initPool 1) 0 rfl (by decide)
  have h2 : Step c1s1 c1s2 := Step.connectEnqueue c1s1 1 (by decide) (by decide)
  have h3 : Step c1s2 c1s3 := Step.connectEnqueue c1s2 2 (by decide) (by decide)
  have h4 : Step c1s3 c1s4 := Step.closeRelease c1s3 0 (by decide)
  exact .tail (.tail (.tail (.tail .refl h1) h2) h3) h4

/-- C3 (amended): for every `connect_async` call on a saturated pool whose
wait times out, the call fails with the distinct catchable
`MaxConnectionsExceeded` condition (not the generic `TimeoutError`) and
performs no connection open in that branch — but the caller's waiter is
NOT removed from the queue: the `except TimeoutError` branch leaves
`self._waiters` untouched, so the abandoned entry remains and can absorb
a later release signal. -/
theorem c3_timeout_branch_amended (s : PoolSt) (c : Nat)
    (h : s.phase c = .waiting) :
    connect_wait_outcome [.timeoutRaise] = .error .maxConnectionsExceeded ∧
    PwError.maxConnectionsExceeded ≠ PwError.timeoutError ∧
    Step s (timeoutConn s c) ∧
    (timeoutConn s c).inUse = s.inUse ∧
    (timeoutConn s c).waiters = s.waiters ∧
    (timeoutConn s c).phase c = .failed := by
  refine ⟨rfl, by decide, Step.timeoutFire s c h, rfl, rfl, ?_⟩
  simp [timeoutConn]

/-- Trace for C3 on a capacity-1 pool: context 0 connects, context 1
queues and times out, context 2 queues, context 0 releases. -/
def c3s2 : PoolSt := enqueueWaiter (admitConn (initPool 1) 0) 1

def c3s3 : PoolSt := timeoutConn c3s2 1

def c3s4 : PoolSt := enqueueWaiter c3s3 2

def c3s5 : PoolSt := closeAsyncState c3s4 0

/-- Witness for C3 (amended) at the reachable state `c3s2` with context 1
waiting: the timeout leaves the queue untouched and marks the caller
failed. -/
theorem c3_timeout_branch_witness :
    c3s2.phase 1 = Phase.waiting ∧
    (timeoutConn c3s2 1).waiters = c3s2.waiters ∧
    (timeoutConn c3s2 1).phase 1 = Phase.failed := by
  have h := c3_timeout_branch_amended c3s2 1 (by decide)
  exact ⟨by decide, h.2.2.2.2.1, h.2.2.2.2.2⟩

/-- C3 counterexample: after context 1's wait times out on a capacity-1
pool, its waiter entry is still queued (`c3s3.waiters = [1]` with context
1 already failed); when context 2 then queues and context 0 releases, the
single release signal is absorbed by the dead entry, leaving the live
waiter 2 queued and unsignaled with the whole capacity free — refuting
"the caller's Waiter is removed from the queue if still present". -/
theorem c3_timed_out_waiter_left_queued :
    Reachable (initPool 1) c3s3 ∧ c3s3.phase 1 = .failed ∧ c3s3.waiters = [1] ∧
    Reachable (initPool 1) c3s5 ∧ c3s5.inUse = 0 ∧ c3s5.waiters = [2] ∧
      c3s5.phase 2 = .waiting := by
  have h1 : Step (initPool 1) (admitConn (initPool 1) 0) :=
    Step.connectImmediate (initPool 1) 0 rfl (by decide)
  have h2 : Step (admitConn (initPool 1) 0) c3s2 :=
    Step.connectEnqueue _ 1 (by decide) (by decide)
  have h3 : Step c3s2 c3s3 := Step.timeoutFire c3s2 1 (by decide)
  have h4 : Step c3s3 c3s4 := Step.connectEnqueue c3s3 2 (by decide) (by decide)
  have h5 : Step c3s4 c3s5 := Step.closeRelease c3s4 0 (by decide)
  have r3 : Reachable (initPool 1) c3s3 := .tail (.tail (.tail .refl h1) h2) h3
  exact ⟨r3, by decide, by decide, .tail (.tail r3 h4) h5, by decide, by decide,
    by decide⟩

/-- C6: for every context whose connection has a non-zero transaction
depth, `close_async` fails with `OperationalError` and does not close the
connection — the call returns the error with no state mutation; when the
transaction depth is zero, `close_async` closes the connection (context
state reset to closed with no connection, the in-use count dropping when
a connection was open) and then drains admittable waiters, never leaving
an admittable waiter queued. -/
theorem c6_close_transaction_guard (st : CtxState) (m iu : Nat) (ws : List Nat) :
    (in_transaction st = true →
      close_async_model st m iu ws = .error .operationalError) ∧
    (in_transaction st = false →
      close_async_model st m iu ws =
        .ok (⟨true, none, some []⟩, (if st.closed then iu else iu - 1),
          (releasePass m (if st.closed then iu else iu - 1) ws).1,
          (releasePass m (if st.closed then iu else iu - 1) ws).2) ∧
      ((releasePass m (if st.closed then iu else iu - 1) ws).2 ≠ [] →
        (releasePass m (if st.closed then iu else iu - 1) ws).1.length =
          m - (if st.closed then iu else iu - 1))) := by
  constructor
  · intro h
    simp [close_async_model, h]
  · intro h
    constructor
    · simp [close_async_model, h]
    · intro hne
      rw [releasePass_snd] at hne
      rw [releasePass_fst, List.length_take]
      have hgt : ¬ ws.length ≤ m - (if st.closed then iu else iu - 1) :=
        fun hle => hne (List.drop_eq_nil_iff.mpr hle)
      omega

/-- A context mid-transaction (depth 1). -/
def c6TxnCtx : CtxState :=
  { closed := false, conn := some 4, transactions := some [.transaction] }

/-- An open context at transaction depth zero. -/
def c6FreeCtx : CtxState :=
  { closed := false, conn := some 4, transactions := some [] }

/-- Witness for C6 on a capacity-1 pool with one connection out and one
queued waiter: mid-transaction close fails with `OperationalError`;
transaction-free close resets the context, returns the connection and
signals the waiter. -/
theorem c6_close_transaction_guard_witness :
    close_async_model c6TxnCtx 1 1 [9] = .error .operationalError ∧
    close_async_model c6FreeCtx 1 1 [9] =
      .ok (⟨true, none, some []⟩, 0, [9], []) := by
  refine ⟨(c6_close_transaction_guard c6TxnCtx 1 1 [9]).1 (by decide), ?_⟩
  have h := ((c6_close_transaction_guard c6FreeCtx 1 1 [9]).2 (by decide)).1
  exact h.trans rfl

/-- C7: entering an atomic scope chooses by current depth — at transaction
depth zero it builds the transaction helper, whose entry emits the begin
statement; at non-zero depth with a non-manual top-of-stack it builds the
savepoint helper, whose entry emits the savepoint statement; and when the
top-of-stack transaction is in manual-commit mode it fails immediately
with `ValueError` and emits no SQL at all for that entry. -/
theorem c7_atomic_enter_cases (stack : List TxnKind) :
    (stack = [] → atomic_aenter stack = (.ok .transactionHelper, [.begin])) ∧
    (stack ≠ [] → top_transaction stack ≠ some .manual →
      atomic_aenter stack = (.ok .savepointHelper, [.beginSavepoint])) ∧
    (top_transaction stack = some .manual →
      atomic_aenter stack = (.error .valueError, [])) := by
  refine ⟨?_, ?_, ?_⟩
  · intro h
    subst h
    rfl
  · intro hne hm
    have hlen : stack.length ≠ 0 :=
      fun h0 => hne (List.eq_nil_of_length_eq_zero h0)
    simp [atomic_aenter, hlen, hm]
  · intro hm
    have hne : stack ≠ [] := by
      intro h
      subst h
      simp [top_transaction] at hm
    have hlen : stack.length ≠ 0 :=
      fun h0 => hne (List.eq_nil_of_length_eq_zero h0)
    simp [atomic_aenter, hlen, hm]

/-- Witness for C7 at the three concrete stacks: empty, a single
transaction, and a transaction topped by a manual-commit block. -/
theorem c7_atomic_enter_witness :
    atomic_aenter [] = (.ok .transactionHelper, [.begin]) ∧
    atomic_aenter [.transaction] = (.ok .savepointHelper, [.beginSavepoint]) ∧
    atomic_aenter [.transaction, .manual] = (.error .valueError, []) :=
  ⟨(c7_atomic_enter_cases []).1 rfl,
    (c7_atomic_enter_cases [.transaction]).2.1 (by decide) (by decide),
    (c7_atomic_enter_cases [.transaction, .manual]).2.2 (by decide)⟩

/-- The reachable capacity-2 state with both connections checked out and
no waiter queued. -/
def c8St : PoolSt := admitConn (admitConn (initPool 2) 0) 1

/-- C8 counterexample: the reachable capacity-2 state with both
connections checked out and no waiter queued is a fixed point of
`close_all_async` — the `while self._waiters:` guard is false at entry, so
no `close_all` pass runs and both physical connections remain checked out,
refuting "drains all physical connections ... including when the waiter
queue is empty at the start of the call". -/
theorem c8_close_all_noop_when_no_waiters :
    Reachable (initPool 2) c8St ∧ c8St.inUse = 2 ∧ c8St.waiters = [] ∧
    close_all_async c8St = c8St ∧ (close_all_async c8St).inUse ≠ 0 := by
  refine ⟨?_, by decide, rfl, rfl, by decide⟩
  have h1 : Step (initPool 2) (admitConn (initPool 2) 0) :=
    Step.connectImmediate (initPool 2) 0 rfl (by decide)
  have h2 : Step (admitConn (initPool 2) 0) c8St :=
    Step.connectImmediate _ 1 (by decide) (by decide)
  exact .tail (.tail .refl h1) h2

/-- C8 (amended): when the waiter queue is non-empty at the start of the
call (and the capacity is positive), `close_all_async` repeatedly closes
all physical connections and releases until the waiter queue is empty, so
at completion no physical connection remains checked out and no waiter
remains queued; when the waiter queue is empty at the start, the loop body
never runs and checked-out connections remain. -/
theorem c8_close_all_drains_amended (s : PoolSt) (hm : 1 ≤ s.maxConn)
    (hw : s.waiters ≠ []) :
    (close_all_async s).waiters = [] ∧ (close_all_async s).inUse = 0 :=
  close_all_loop_drains s.waiters.length s hm (Nat.le_refl _) hw

/-- A capacity-1 pool with one connection out and one queued waiter. -/
def c8WitSt : PoolSt :=
  { maxConn := 1, inUse := 1, waiters := [3], phase := fun _ => .idle }

/-- Witness for C8 (amended): with a waiter queued, `close_all_async`
empties both the in-use set and the queue. -/
theorem c8_close_all_drains_witness :
    (close_all_async c8WitSt).waiters = [] ∧ (close_all_async c8WitSt).inUse = 0 :=
  c8_close_all_drains_amended c8WitSt (by decide) (by decide)

/-- C9: each facade `__aexit__` pops exactly one entry from the context's
nesting stack, the connection is closed exactly on the exit that empties
the stack (otherwise the closed flag is untouched), the close is attempted
— and the resulting state identical — whether or not the popped scope's
own `__exit__` raises (whose failure is then re-raised), and after any
balanced sequence of enters and exits from a fresh context the closed
flag matches "no scope open", so a fully unwound context has released its
connection. -/
theorem c9_scoped_exit_balance (s : FacadeSt) (d : Nat) (f : Bool)
    (hd : s.ctxDepth = d + 1) :
    facade_aexit s f =
      some ({ ctxDepth := d, closed := if d = 0 then true else s.closed }, f) ∧
    (facade_aexit s f).map Prod.fst = (facade_aexit s (!f)).map Prod.fst ∧
    (∀ (ops : List FOp) (s' : FacadeSt),
      runOps { ctxDepth := 0, closed := true } ops = some s' →
        s'.closed = decide (s'.ctxDepth = 0)) := by
  refine ⟨?_, ?_, ?_⟩
  · unfold facade_aexit
    rw [hd]
  · unfold facade_aexit
    rw [hd]
    rfl
  · intro ops s' hrun
    exact runOps_invariant ops ⟨0, true⟩ (by simp) s' hrun

/-- Witness for C9: a depth-2 exit whose scope raises pops to depth 1
without closing, and the balanced run enter-then-failing-exit from a fresh
context ends fully unwound and closed. -/
theorem c9_scoped_exit_witness :
    facade_aexit { ctxDepth := 2, closed := false } true =
      some ({ ctxDepth := 1, closed := false }, true) ∧
    runOps { ctxDepth := 0, closed := true } [.enter, .exitScope true] =
      some { ctxDepth := 0, closed := true } ∧
    ({ ctxDepth := 0, closed := true } : FacadeSt).closed = true := by
  have h := c9_scoped_exit_balance { ctxDepth := 2, closed := false } 1 true rfl
  exact ⟨h.1.trans (by decide), rfl,
    h.2.2 [.enter, .exitScope true] { ctxDepth := 0, closed := true } rfl⟩

end AioPeewee
